import Mathlib

/-!
# Soluv-core: a shallow embedding of the collector and enrichment pipeline

This file embeds, in Lean 4, the parts of the Soluv-core repository that the
verified properties talk about:

* the Reddit collector's watermark filter (`filterNewPosts`),
* the collector's credential pool (`OptimizedRedditCollector.nextClient`),
* the spam/PII agent (`SpamAgent.checkSpamAndPii`) including the JavaScript
  sticky (`/g`) regular-expression semantics of its PII patterns,
* the validity agent (`ValidityAgent.checkValidity`),
* the cluster agent (`ClusterAgent.assignCluster`) together with the
  clusters repository it writes through, and
* the orchestrator (`OrchestratorService.processPost` and
  `executeOrchestrationPipeline`) over an explicit store state.

Numbers that are JavaScript `number`s in the source are modelled as `Rat`
(for scores, centroids and thresholds) or `Nat` (for counters and unix
timestamps).  Asynchronous effects are modelled by explicit state passing;
calls that can throw return `Except String`.  LLM round-trips are opaque:
they appear as oracle functions supplied to the model.
-/

namespace Soluv

/-- `AgentResult<T>` from `src/apps/ai-orchestrator/src/types/index.ts`.
Every agent in the source pairs `success: true` with a present `data`
payload and `success: false` with an `error` string, so the result is
modelled as a sum.  (Latency and token accounting are wall-clock
diagnostics and are not modelled.) -/
inductive AgentResult (α : Type) where
  | ok (data : α)
  | fail (error : String)
deriving DecidableEq, Repr

namespace AgentResult

/-- The `success` field of an `AgentResult`. -/
def success : AgentResult α → Bool
  | .ok _ => true
  | .fail _ => false

/-- The optional `data` field of an `AgentResult`. -/
def data : AgentResult α → Option α
  | .ok d => some d
  | .fail _ => none

end AgentResult

/-! ## Watermark filter (collector worker, `filterNewPosts`)

From the Reddit collector worker: reads the `last_fetch:<subreddit>`
watermark (missing key parses as `0`), keeps the posts strictly newer than
it, and, when any survive, stores the maximum `createdUtc` among them. -/

/-- The fields of a `RedditPost` that `filterNewPosts` reads. -/
structure RedditPost where
  id : String
  createdUtc : Nat
deriving DecidableEq, Repr

/-- `Math.max(...newOnes.map(p => p.createdUtc))` specialised to a list of
posts; on `Nat` the fold from `0` computes the maximum of a non-empty
list. -/
def maxCreatedUtc (posts : List RedditPost) : Nat :=
  posts.foldl (fun acc p => max acc p.createdUtc) 0

/-- `filterNewPosts(subreddit, posts)` from the collector worker.  The
durable watermark cell for the sub-source is passed in and returned:
`none` models a missing `last_fetch:<subreddit>` key (which
`parseInt(... || "0")` turns into `0`). -/
def filterNewPosts (watermark : Option Nat) (posts : List RedditPost) :
    List RedditPost × Option Nat :=
  let lastFetched := watermark.getD 0
  let newOnes := posts.filter (fun p => lastFetched < p.createdUtc)
  if newOnes.isEmpty then
    (newOnes, watermark)
  else
    (newOnes, some (maxCreatedUtc newOnes))

end Soluv

namespace Soluv

/-! Auxiliary facts about `maxCreatedUtc`. -/

theorem foldl_max_le_init (posts : List RedditPost) (a : Nat) :
    a ≤ posts.foldl (fun acc p => max acc p.createdUtc) a := by
  induction posts generalizing a with
  | nil => simp
  | cons p ps ih =>
      simp only [List.foldl_cons]
      exact le_trans (le_max_left a p.createdUtc) (ih _)

theorem mem_le_foldl_max (posts : List RedditPost) (a : Nat) (p : RedditPost)
    (hp : p ∈ posts) :
    p.createdUtc ≤ posts.foldl (fun acc q => max acc q.createdUtc) a := by
  induction posts generalizing a with
  | nil => cases hp
  | cons q qs ih =>
      rcases List.mem_cons.mp hp with h | h
      · subst h
        exact le_trans (le_max_right a p.createdUtc) (foldl_max_le_init qs _)
      · exact ih (max a q.createdUtc) h

theorem mem_le_maxCreatedUtc (posts : List RedditPost) (p : RedditPost)
    (hp : p ∈ posts) : p.createdUtc ≤ maxCreatedUtc posts :=
  mem_le_foldl_max posts 0 p hp

theorem watermark_lt_maxCreatedUtc (w0 : Nat) (posts : List RedditPost)
    (hne : posts.filter (fun p => w0 < p.createdUtc) ≠ []) :
    w0 < maxCreatedUtc (posts.filter (fun p => w0 < p.createdUtc)) := by
  rcases List.exists_mem_of_ne_nil _ hne with ⟨p, hp⟩
  have hlt : w0 < p.createdUtc := by
    have := (List.mem_filter.mp hp).2
    simpa using this
  exact lt_of_lt_of_le hlt (mem_le_maxCreatedUtc _ p hp)

/-- C3: `filterNewPosts(s, P)` returns exactly the posts of `P` whose
`createdUtc` is strictly greater than the stored watermark; when the
returned set `R` is non-empty the watermark becomes
`max(W_before, max createdUtc over R)` and otherwise stays unchanged; and
filtering the same batch again with the updated watermark returns the
empty list. -/
theorem filterNewPosts_correct (w : Option Nat) (posts : List RedditPost) :
    (filterNewPosts w posts).1
        = posts.filter (fun p => w.getD 0 < p.createdUtc)
    ∧ (filterNewPosts w posts).2
        = (if (posts.filter (fun p => w.getD 0 < p.createdUtc)).isEmpty
           then w
           else some (max (w.getD 0)
             (maxCreatedUtc (posts.filter (fun p => w.getD 0 < p.createdUtc)))))
    ∧ (filterNewPosts (filterNewPosts w posts).2 posts).1 = [] := by
  set w0 := w.getD 0 with hw0
  set r := posts.filter (fun p => w0 < p.createdUtc) with hr
  by_cases hempty : r.isEmpty
  · have hnil : r = [] := List.isEmpty_iff.mp hempty
    refine ⟨by simp [filterNewPosts, ← hw0, ← hr, hempty], ?_, ?_⟩
    · simp [filterNewPosts, ← hw0, ← hr, hempty]
    · simp [filterNewPosts, ← hw0, ← hr, hempty, hnil]
  · have hne : r ≠ [] := fun h => hempty (by simp [h])
    have hlt : w0 < maxCreatedUtc r := watermark_lt_maxCreatedUtc w0 posts hne
    have hmax : max w0 (maxCreatedUtc r) = maxCreatedUtc r :=
      max_eq_right (le_of_lt hlt)
    refine ⟨by simp [filterNewPosts, ← hw0, ← hr, hempty], ?_, ?_⟩
    · simp [filterNewPosts, ← hw0, ← hr, hempty, hmax]
    · have hsnd : (filterNewPosts w posts).2 = some (maxCreatedUtc r) := by
        simp [filterNewPosts, ← hw0, ← hr, hempty]
      rw [hsnd]
      have hall : posts.filter
          (fun p => maxCreatedUtc r < p.createdUtc) = [] := by
        rw [List.filter_eq_nil_iff]
        intro p hp
        simp only [decide_eq_true_eq, not_lt]
        by_cases hcase : w0 < p.createdUtc
        · have hmem : p ∈ r := by
            rw [hr]; exact List.mem_filter.mpr ⟨hp, by simpa using hcase⟩
          exact mem_le_maxCreatedUtc r p hmem
        · exact le_trans (not_lt.mp hcase) (le_of_lt hlt)
      simp [filterNewPosts, hall]

/-! ## Credential pool (`OptimizedRedditCollector.nextClient`)

From `src/apps/collectors/reddit/src/filters/problemKeywordFilter.ts`.
The collector keeps an ordered list of Reddit clients, a last-used
`clientIndex` and a `clientCooldownUntil` vector of unix-millisecond
timestamps, refreshed from the durable `cooldown:<i>` keys before each
selection. -/

/-- The credential-pool fields of `OptimizedRedditCollector`:
`clients.length`, `clientIndex` and `clientCooldownUntil`.  A missing
entry of the cooldown vector reads as `0` (`?? 0` in the source). -/
structure PoolState where
  numClients : Nat
  clientIndex : Nat
  clientCooldownUntil : List Nat
deriving DecidableEq, Repr

/-- `this.clientCooldownUntil[i] ?? 0`. -/
def cooldownAt (st : PoolState) (i : Nat) : Nat :=
  st.clientCooldownUntil[i]?.getD 0

/-- The hydration loop of `nextClient`: for each index below
`clients.length`, a finite value stored under `cooldown:<i>` overwrites
the in-memory entry.  `redis i` is the parsed durable value (`none` for a
missing or non-finite key). -/
def hydrateCooldowns (redis : Nat → Option Nat) (st : PoolState) : PoolState :=
  { st with clientCooldownUntil :=
      (List.range st.numClients).map (fun i =>
        match redis i with
        | some v => v
        | none => cooldownAt st i) }

/-- The scan loop of `nextClient`: offsets `0 .. totalClients-1` in order,
candidate `(clientIndex + offset) % totalClients`, first candidate with
`Date.now() >= cooldownUntil` wins. -/
def scanOffsets (st : PoolState) (now : Nat) : Nat → Nat → Option Nat
  | _, 0 => none
  | off, remaining + 1 =>
      if cooldownAt st ((st.clientIndex + off) % st.numClients) ≤ now
      then some ((st.clientIndex + off) % st.numClients)
      else scanOffsets st now (off + 1) remaining

/-- `Math.min(...clientCooldownUntil.map(ts => Math.max(0, ts - now)))`;
on `Nat` the truncated subtraction is exactly `Math.max(0, ts - now)`.
An empty vector yields `0` (the source would produce `Infinity` but the
pool always holds at least one credential). -/
def shortestWaitMs (st : PoolState) (now : Nat) : Nat :=
  match st.clientCooldownUntil.map (fun ts => ts - now) with
  | [] => 0
  | x :: xs => xs.foldl min x

/-- `OptimizedRedditCollector.nextClient`, returning the selected
credential index, the time after any sleep, and the updated pool state.
The all-cooling branch sleeps `shortestWaitMs` and then advances to
`(clientIndex + 1) % totalClients` without re-checking its cooldown. -/
def nextClient (redis : Nat → Option Nat) (now : Nat) (st : PoolState) :
    Nat × Nat × PoolState :=
  let st := hydrateCooldowns redis st
  match scanOffsets st now 0 st.numClients with
  | some cand => (cand, now, { st with clientIndex := cand })
  | none =>
      let idx := (st.clientIndex + 1) % st.numClients
      (idx, now + shortestWaitMs st now, { st with clientIndex := idx })

/-- Modelled from the spec's words, for comparison with `nextClient`:
"scans starting at `lastIndex+1 mod N` for the first credential whose
`cooldownUntil ≤ now`". -/
def nextClientSpecScan (st : PoolState) (now : Nat) : Option Nat :=
  ((List.range st.numClients).map
      (fun off => (st.clientIndex + 1 + off) % st.numClients)).find?
    (fun i => cooldownAt st i ≤ now)

theorem cooldownAt_hydrate (redis : Nat → Option Nat) (st : PoolState)
    (i : Nat) (h : i < st.numClients) :
    cooldownAt (hydrateCooldowns redis st) i
      = (match redis i with | some v => v | none => cooldownAt st i) := by
  simp only [cooldownAt, hydrateCooldowns]
  rw [List.getElem?_map, List.getElem?_range h]
  cases hredis : redis i <;> simp [hredis, cooldownAt]

theorem numClients_hydrate (redis : Nat → Option Nat) (st : PoolState) :
    (hydrateCooldowns redis st).numClients = st.numClients := rfl

theorem clientIndex_hydrate (redis : Nat → Option Nat) (st : PoolState) :
    (hydrateCooldowns redis st).clientIndex = st.clientIndex := rfl

/-- One-shot description of `nextClient` when every hydrated cooldown is
expired: the scan succeeds at offset `0`, so the pool hands back the
last-used index unchanged. -/
theorem nextClient_step (redis : Nat → Option Nat) (now : Nat)
    (st : PoolState) (hn : 0 < st.numClients)
    (hidx : st.clientIndex < st.numClients)
    (hall : ∀ i ∈ List.range st.numClients,
      cooldownAt (hydrateCooldowns redis st) i ≤ now) :
    nextClient redis now st
      = (st.clientIndex, now,
          { hydrateCooldowns redis st with clientIndex := st.clientIndex }) := by
  obtain ⟨m, hm⟩ : ∃ m, st.numClients = m + 1 :=
    ⟨st.numClients - 1, (Nat.succ_pred_eq_of_pos hn).symm⟩
  have hscan : scanOffsets (hydrateCooldowns redis st) now 0
      (hydrateCooldowns redis st).numClients = some st.clientIndex := by
    rw [numClients_hydrate, hm]
    rw [scanOffsets]
    rw [clientIndex_hydrate, numClients_hydrate, Nat.add_zero,
      Nat.mod_eq_of_lt (hm ▸ hidx)]
    rw [if_pos (hall st.clientIndex (List.mem_range.mpr hidx))]
  simp only [nextClient, hscan]

/-- C4, amended: `nextClient`'s scan starts at the last-used index itself
(offset `0`), not at `lastIndex+1`; when no credential is on cooldown the
pool therefore returns the same credential on every call (no rotation),
and the returned credential's hydrated `cooldownUntil` is `≤ now`. -/
theorem nextClient_no_cooldown_sticky (redis : Nat → Option Nat) (now : Nat)
    (st : PoolState) (hn : 0 < st.numClients)
    (hidx : st.clientIndex < st.numClients)
    (hall : ∀ i ∈ List.range st.numClients,
      cooldownAt (hydrateCooldowns redis st) i ≤ now) :
    (nextClient redis now st).1 = st.clientIndex
    ∧ (nextClient redis now (nextClient redis now st).2.2).1 = st.clientIndex
    ∧ cooldownAt (hydrateCooldowns redis st) st.clientIndex ≤ now := by
  have h1 := nextClient_step redis now st hn hidx hall
  have hcool : cooldownAt (hydrateCooldowns redis st) st.clientIndex ≤ now :=
    hall st.clientIndex (List.mem_range.mpr hidx)
  refine ⟨by rw [h1], ?_, hcool⟩
  set st1 : PoolState :=
    { hydrateCooldowns redis st with clientIndex := st.clientIndex } with hst1
  have hn1 : 0 < st1.numClients := hn
  have hidx1 : st1.clientIndex < st1.numClients := hidx
  have hcd1 : ∀ i, i < st.numClients → cooldownAt st1 i
      = cooldownAt (hydrateCooldowns redis st) i := by
    intro i _
    simp [hst1, cooldownAt]
  have hall1 : ∀ i ∈ List.range st1.numClients,
      cooldownAt (hydrateCooldowns redis st1) i ≤ now := by
    intro i hi
    have hilt : i < st.numClients := List.mem_range.mp hi
    rw [cooldownAt_hydrate redis st1 i hilt]
    have := hall i (List.mem_range.mpr hilt)
    rw [cooldownAt_hydrate redis st i hilt] at this
    cases hredis : redis i with
    | some v => rw [hredis] at this; exact this
    | none =>
        rw [hredis] at this
        rw [hcd1 i hilt, cooldownAt_hydrate redis st i hilt, hredis]
        exact this
  have h2 := nextClient_step redis now st1 hn1 hidx1 hall1
  rw [h1]
  show (nextClient redis now st1).1 = st.clientIndex
  rw [h2]

/-- C4, counterexample: with two credentials, neither on cooldown, and
last-used index `0`, the source's scan (which starts at the last-used
index itself) returns credential `0` twice in a row, while a scan
starting at `lastIndex+1 mod N` — the claim's round-robin order — would
hand out credential `1` first. -/
theorem nextClient_round_robin_counterexample :
    (nextClient (fun _ => none) 100 ⟨2, 0, [0, 0]⟩).1 = 0
    ∧ (nextClient (fun _ => none) 100
        (nextClient (fun _ => none) 100 ⟨2, 0, [0, 0]⟩).2.2).1 = 0
    ∧ nextClientSpecScan
        (hydrateCooldowns (fun _ => none) ⟨2, 0, [0, 0]⟩) 100 = some 1
    ∧ (0 : Nat) ≠ 1 := by
  refine ⟨by decide, by decide, by decide, by decide⟩

/-- Closed instantiation of `nextClient_no_cooldown_sticky` at a concrete
pool. -/
theorem nextClient_no_cooldown_sticky_witness :
    (nextClient (fun _ => none) 100 ⟨2, 0, [0, 0]⟩).1 = 0
    ∧ (nextClient (fun _ => none) 100
        (nextClient (fun _ => none) 100 ⟨2, 0, [0, 0]⟩).2.2).1 = 0
    ∧ cooldownAt (hydrateCooldowns (fun _ => none) ⟨2, 0, [0, 0]⟩) 0 ≤ 100 :=
  nextClient_no_cooldown_sticky (fun _ => none) 100 ⟨2, 0, [0, 0]⟩
    (by decide) (by decide) (by decide)

/-! ## Spam/PII agent (`SpamAgent.checkSpamAndPii`)

The agent lowercases `title + " " + body`, runs four PII regular
expressions over it, counts spam-indicator substrings, and ORs the
rule-based verdicts with the LLM moderation verdict.  The PII regexes are
compiled once per agent instance **with the `g` flag** and probed with
`RegExp.test`, so each pattern carries a persistent `lastIndex` between
calls: a successful test moves `lastIndex` past the match and a failing
test resets it to `0`.  The matchers below implement exactly the four
source patterns (including word boundaries and greedy backtracking) over
a character list. -/

/-- JS `\d`. -/
def jsIsDigit (c : Char) : Bool := '0' ≤ c && c ≤ '9'

/-- JS word character (`\w`), as used by the `\b` assertion. -/
def jsIsWordChar (c : Char) : Bool := c.isAlpha || jsIsDigit c || c = '_'

/-- The ASCII part of JS `\s` (the patterns are probed on ASCII text). -/
def jsIsSpace (c : Char) : Bool :=
  c = ' ' || c = '\t' || c = '\n' || c = '\r' || c = '\x0b' || c = '\x0c'

/-- The separator class `[-.\s]` of the phone and credit-card patterns. -/
def sepChar (c : Char) : Bool := c = '-' || c = '.' || jsIsSpace c

/-- Character at index `i` satisfies `p` (out of range is `false`). -/
def charSat (cs : List Char) (i : Nat) (p : Char → Bool) : Bool :=
  match cs[i]? with
  | some c => p c
  | none => false

/-- Character at index `i` equals `c`. -/
def charIs (cs : List Char) (i : Nat) (c : Char) : Bool :=
  charSat cs i (fun d => d = c)

/-- Is the character at index `i` a word character? -/
def wordAt (cs : List Char) (i : Nat) : Bool := charSat cs i jsIsWordChar

/-- The JS `\b` assertion at position `i`: exactly one side of the
position holds a word character. -/
def isBoundary (cs : List Char) (i : Nat) : Bool :=
  (match i with | 0 => false | j + 1 => wordAt cs j) != wordAt cs i

/-- `n` consecutive digits starting at index `i` (`\d{n}`). -/
def digitsAt (cs : List Char) : Nat → Nat → Bool
  | _, 0 => true
  | i, n + 1 => charSat cs i jsIsDigit && digitsAt cs (i + 1) n

/-- Length of the maximal run of characters satisfying `p`. -/
def runLen (p : Char → Bool) : List Char → Nat
  | [] => 0
  | c :: rest => if p c then runLen p rest + 1 else 0

/-- Length of the maximal run satisfying `p` starting at index `i`. -/
def runLenFrom (p : Char → Bool) (cs : List Char) (i : Nat) : Nat :=
  runLen p (cs.drop i)

/-- `/\b\d{3}-\d{2}-\d{4}\b/` (SSN) matched starting exactly at `i`;
returns the end index of the match. -/
def ssnMatchAt (cs : List Char) (i : Nat) : Option Nat :=
  if isBoundary cs i && digitsAt cs i 3 && charIs cs (i + 3) '-' &&
      digitsAt cs (i + 4) 2 && charIs cs (i + 6) '-' &&
      digitsAt cs (i + 7) 4 && isBoundary cs (i + 11)
  then some (i + 11) else none

/-- Skip one optional separator (`[-.\s]?`).  The optional greedy
quantifier is deterministic here: a separator character can never satisfy
the following `\d`, so the only viable path consumes it iff present. -/
def skipSep (cs : List Char) (i : Nat) : Nat :=
  if charSat cs i sepChar then i + 1 else i

/-- `/\b\d{3}[-.\s]?\d{3}[-.\s]?\d{4}\b/` (phone) matched starting at
`i`. -/
def phoneMatchAt (cs : List Char) (i : Nat) : Option Nat :=
  if isBoundary cs i && digitsAt cs i 3 then
    let j := skipSep cs (i + 3)
    if digitsAt cs j 3 then
      let k := skipSep cs (j + 3)
      if digitsAt cs k 4 && isBoundary cs (k + 4) then some (k + 4) else none
    else none
  else none

/-- `/\b\d{4}[-.\s]?\d{4}[-.\s]?\d{4}[-.\s]?\d{4}\b/` (credit card)
matched starting at `i`. -/
def cardMatchAt (cs : List Char) (i : Nat) : Option Nat :=
  if isBoundary cs i && digitsAt cs i 4 then
    let j := skipSep cs (i + 4)
    if digitsAt cs j 4 then
      let k := skipSep cs (j + 4)
      if digitsAt cs k 4 then
        let l := skipSep cs (k + 4)
        if digitsAt cs l 4 && isBoundary cs (l + 4) then some (l + 4)
        else none
      else none
    else none
  else none

/-- Local-part class `[A-Za-z0-9._%+-]` of the email pattern. -/
def localChar (c : Char) : Bool :=
  c.isAlpha || jsIsDigit c || c = '.' || c = '_' || c = '%' || c = '+' ||
    c = '-'

/-- Domain class `[A-Za-z0-9.-]` of the email pattern. -/
def domainChar (c : Char) : Bool :=
  c.isAlpha || jsIsDigit c || c = '.' || c = '-'

/-- Top-level-domain class `[A-Z|a-z]` of the email pattern (the literal
`|` inside the class matches a pipe character). -/
def tldChar (c : Char) : Bool := c.isAlpha || c = '|'

/-- Greedy backtracking for `[A-Z|a-z]{2,}\b` at position `pos`: try the
current run length, then shorter, stopping below two characters. -/
def tldBacktrack (cs : List Char) (pos : Nat) : Nat → Option Nat
  | 0 => none
  | t + 1 =>
      if 2 ≤ t + 1 && isBoundary cs (pos + (t + 1)) then some (pos + (t + 1))
      else tldBacktrack cs pos t

/-- Greedy backtracking for `[A-Za-z0-9.-]+\.` after the `@` at position
`j`: the `+` group takes `k` characters (longest first), the next
character must be the literal dot, then the TLD part must match. -/
def domainBacktrack (cs : List Char) (j : Nat) : Nat → Option Nat
  | 0 => none
  | k + 1 =>
      match (if charIs cs (j + (k + 1)) '.'
             then tldBacktrack cs (j + (k + 1) + 1)
                (runLenFrom tldChar cs (j + (k + 1) + 1))
             else none) with
      | some e => some e
      | none => domainBacktrack cs j k

/-- `/\b[A-Za-z0-9._%+-]+@[A-Za-z0-9.-]+\.[A-Z|a-z]{2,}\b/` (email)
matched starting at `i`.  The local part is necessarily the maximal run
(no character of its class is `@`). -/
def emailMatchAt (cs : List Char) (i : Nat) : Option Nat :=
  if isBoundary cs i then
    let L := runLenFrom localChar cs i
    if L = 0 then none
    else if charIs cs (i + L) '@' then
      domainBacktrack cs (i + L + 1) (runLenFrom domainChar cs (i + L + 1))
    else none
  else none

/-- Scan for the leftmost match whose start is `≥ i`; `fuel` bounds the
remaining start positions. -/
def scanMatch (m : List Char → Nat → Option Nat) (cs : List Char) :
    Nat → Nat → Option Nat
  | _, 0 => none
  | i, fuel + 1 =>
      match m cs i with
      | some e => some e
      | none => scanMatch m cs (i + 1) fuel

/-- End position of the leftmost match starting at or after `start`. -/
def firstMatchEndFrom (m : List Char → Nat → Option Nat) (cs : List Char)
    (start : Nat) : Option Nat :=
  scanMatch m cs start (cs.length + 1 - start)

/-- `RegExp.prototype.test` on a `g`-flagged regex: search from
`lastIndex`; on success `lastIndex` becomes the match end, on failure it
resets to `0`. -/
def regexTestG (m : List Char → Nat → Option Nat) (cs : List Char)
    (lastIndex : Nat) : Bool × Nat :=
  match firstMatchEndFrom m cs lastIndex with
  | some e => (true, e)
  | none => (false, 0)

/-- The `lastIndex` registers of the four `piiPatterns` regex objects,
which live on the `SpamAgent` instance and persist between calls. -/
structure PiiState where
  ssnLastIndex : Nat := 0
  emailLastIndex : Nat := 0
  phoneLastIndex : Nat := 0
  cardLastIndex : Nat := 0
deriving DecidableEq, Repr

/-- `this.piiPatterns.some(pattern => pattern.test(content))`: the four
patterns are probed in array order (SSN, email, phone, credit card) and
`some` short-circuits after the first hit, leaving the later patterns'
`lastIndex` untouched. -/
def piiPatternsSome (cs : List Char) (st : PiiState) : Bool × PiiState :=
  let r1 := regexTestG ssnMatchAt cs st.ssnLastIndex
  let st1 := { st with ssnLastIndex := r1.2 }
  if r1.1 then (true, st1) else
  let r2 := regexTestG emailMatchAt cs st1.emailLastIndex
  let st2 := { st1 with emailLastIndex := r2.2 }
  if r2.1 then (true, st2) else
  let r3 := regexTestG phoneMatchAt cs st2.phoneLastIndex
  let st3 := { st2 with phoneLastIndex := r3.2 }
  if r3.1 then (true, st3) else
  let r4 := regexTestG cardMatchAt cs st3.cardLastIndex
  (r4.1, { st3 with cardLastIndex := r4.2 })

/-- The fixed `spamIndicators` list of `SpamAgent`. -/
def spamIndicators : List String :=
  ["click here", "buy now", "limited time", "act now", "free money",
   "guaranteed income", "work from home", "lose weight fast"]

/-- `` `${title} ${body}`.toLowerCase() `` as a character list. -/
def jsToLowerChars (s : String) : List Char := s.toList.map Char.toLower

/-- Does `cs` start with `sub`? -/
def startsWithSub : List Char → List Char → Bool
  | [], _ => true
  | _ :: _, [] => false
  | c :: cs, d :: ds => c = d && startsWithSub cs ds

/-- Does `sub` occur contiguously anywhere in the list? -/
def hasSubList (sub : List Char) : List Char → Bool
  | [] => startsWithSub sub []
  | c :: rest => startsWithSub sub (c :: rest) || hasSubList sub rest

/-- `content.includes(indicator)`. -/
def containsSub (cs : List Char) (sub : String) : Bool :=
  hasSubList sub.toList cs

/-- The parsed LLM moderation verdict `{isSpam, hasPii, notes}` —
`llmAnalysis` in the source after JSON parsing (or its all-`false`
fallback). -/
structure LlmModeration where
  isSpam : Bool
  hasPii : Bool
  notes : String
deriving DecidableEq, Repr

/-- The `data` payload of a successful `checkSpamAndPii` (the free-text
`notes` diagnostic, built from `llmAnalysis.notes` or a formatted score
template, is not modelled). -/
structure SpamData where
  isSpam : Bool
  hasPii : Bool
  spamScore : Rat
deriving DecidableEq, Repr

/-- `SpamAgent.checkSpamAndPii(title, body, author)`, with the LLM
round-trip's parsed verdict supplied as an oracle; returns the agent
result together with the updated regex registers. -/
def checkSpamAndPii (st : PiiState) (title body _author : String)
    (llmAnalysis : LlmModeration) : AgentResult SpamData × PiiState :=
  let content := jsToLowerChars (title ++ " " ++ body)
  let piiTest := piiPatternsSome content st
  let spamScore := spamIndicators.countP (fun ind => containsSub content ind)
  let totalIndicators := spamIndicators.length
  let spamProbability : Rat := (spamScore : Rat) / (totalIndicators : Rat)
  let isSpamRule : Bool := decide (spamProbability > 3/10)
  (.ok { isSpam := isSpamRule || llmAnalysis.isSpam,
         hasPii := piiTest.1 || llmAnalysis.hasPii,
         spamScore := spamProbability },
   piiTest.2)

/-- Modelled from the spec's words, for comparison with the source's
rule-based spam verdict: "lowercase substring match of the title+body
content against the spam-indicator list" — true as soon as any indicator
occurs. -/
def specSpamIndicatorMatch (title body : String) : Bool :=
  spamIndicators.any
    (fun ind => containsSub (jsToLowerChars (title ++ " " ++ body)) ind)

theorem spamProbability_gt_iff (k : Nat) :
    ((k : Rat) / 8 > 3 / 10) ↔ 3 ≤ k := by
  rw [gt_iff_lt, div_lt_div_iff₀ (by norm_num) (by norm_num)]
  constructor
  · intro h
    have h24 : (24 : Rat) < 10 * k := by linarith
    have : (24 : Nat) < 10 * k := by exact_mod_cast h24
    omega
  · intro h
    have : (24 : Nat) < 10 * k := by omega
    have h24 : (24 : Rat) < 10 * k := by exact_mod_cast this
    linarith

/-- Evaluation lemma for `checkSpamAndPii`: the rule-based spam verdict
`countP/8 > 3/10` simplifies to "at least three indicators occur". -/
theorem checkSpamAndPii_eval (st : PiiState)
    (title body author : String) (llm : LlmModeration) :
    (checkSpamAndPii st title body author llm).1
      = .ok { isSpam := (decide (3 ≤ spamIndicators.countP
                (fun ind =>
                  containsSub (jsToLowerChars (title ++ " " ++ body)) ind)))
              || llm.isSpam,
              hasPii :=
                (piiPatternsSome (jsToLowerChars (title ++ " " ++ body)) st).1
              || llm.hasPii,
              spamScore := ((spamIndicators.countP
                (fun ind =>
                  containsSub (jsToLowerChars (title ++ " " ++ body)) ind)
                : Rat)) / 8 }
    ∧ (checkSpamAndPii st title body author llm).2
      = (piiPatternsSome (jsToLowerChars (title ++ " " ++ body)) st).2 := by
  constructor
  · show AgentResult.ok _ = AgentResult.ok _
    have hdec : decide (((spamIndicators.countP
          (fun ind =>
            containsSub (jsToLowerChars (title ++ " " ++ body)) ind) : Rat)
          / (spamIndicators.length : Rat)) > 3 / 10)
        = decide (3 ≤ spamIndicators.countP
          (fun ind =>
            containsSub (jsToLowerChars (title ++ " " ++ body)) ind)) := by
      rw [decide_eq_decide]
      have h8 : (spamIndicators.length : Rat) = 8 := by norm_num [spamIndicators]
      rw [h8]
      exact spamProbability_gt_iff _
    simp only [checkSpamAndPii, hdec]
    norm_num [spamIndicators]
  · rfl

/-- C8, amended: `checkSpamAndPii`'s final `isSpam` is the OR of the
rule-based verdict and the LLM verdict's `isSpam`, where the rule-based
verdict is true iff strictly more than 30% of the eight spam indicators
(i.e. at least three of them) occur as substrings of the lowercased
title+body — a single substring hit is not enough; final `hasPii` is the
OR of the regex PII test and the LLM verdict's `hasPii`. -/
theorem checkSpamAndPii_or_structure (st : PiiState)
    (title body author : String) (llm : LlmModeration) :
    (checkSpamAndPii st title body author llm).1
      = .ok { isSpam := (decide (3 ≤ spamIndicators.countP
                (fun ind =>
                  containsSub (jsToLowerChars (title ++ " " ++ body)) ind)))
              || llm.isSpam,
              hasPii :=
                (piiPatternsSome (jsToLowerChars (title ++ " " ++ body)) st).1
              || llm.hasPii,
              spamScore := ((spamIndicators.countP
                (fun ind =>
                  containsSub (jsToLowerChars (title ++ " " ++ body)) ind)
                : Rat)) / 8 }
    ∧ (checkSpamAndPii st title body author llm).2
      = (piiPatternsSome (jsToLowerChars (title ++ " " ++ body)) st).2 :=
  checkSpamAndPii_eval st title body author llm

/-- C8, counterexample to the claim as stated: with one indicator
("buy now") occurring as a substring and an all-`false` LLM verdict, the
source's final `isSpam` is `false` (one hit of eight is below the 30%
threshold), while the claimed disjunction with a plain substring-match
rule verdict would be `true`. -/
theorem checkSpamAndPii_substring_claim_counterexample :
    (checkSpamAndPii {} "buy now" "tools" "a" ⟨false, false, ""⟩).1.data.map
        (fun d => d.isSpam) = some false
    ∧ (specSpamIndicatorMatch "buy now" "tools"
        || (⟨false, false, ""⟩ : LlmModeration).isSpam) = true
    ∧ (checkSpamAndPii {} "buy now" "tools" "a" ⟨false, false, ""⟩).1.data.map
        (fun d => d.isSpam)
      ≠ some (specSpamIndicatorMatch "buy now" "tools"
        || (⟨false, false, ""⟩ : LlmModeration).isSpam) := by
  have h := (checkSpamAndPii_eval {} "buy now" "tools" "a" ⟨false, false, ""⟩).1
  refine ⟨?_, by decide, ?_⟩
  · rw [h]; decide
  · rw [h]; decide

/-- C10: the four PII regexes are compiled once per `SpamAgent` instance
with the `g` flag and probed with `.test`, so `lastIndex` persists across
calls; on a body holding exactly one SSN-shaped token, the first call
reports `hasPii = true` and the immediate second call with identical
inputs and an identical LLM verdict reports `hasPii = false`. -/
theorem checkSpamAndPii_not_deterministic :
    (checkSpamAndPii {} "ssn" "123-45-6789" "a" ⟨false, false, ""⟩).1.data.map
        (fun d => d.hasPii) = some true
    ∧ (checkSpamAndPii
        (checkSpamAndPii {} "ssn" "123-45-6789" "a" ⟨false, false, ""⟩).2
        "ssn" "123-45-6789" "a" ⟨false, false, ""⟩).1.data.map
        (fun d => d.hasPii) = some false :=
  ⟨by decide, by decide⟩

/-! ## Validity agent (`ValidityAgent.checkValidity`)

The agent trims the body, rejects empty and too-short inputs without any
LLM round-trip, and otherwise performs an initial LLM classification,
optionally followed by a problem-derivation LLM call whose results are
cross-checked into the final data. -/

/-- `DerivedProblem` from `validity.agent2`. -/
structure DerivedProblem where
  problemStatement : String
  label : String
  industry : String
  explanation : String
deriving DecidableEq, Repr

/-- `ProblemClassifierModelOutput` (the `data` of `checkValidity`). -/
structure ValidityData where
  isProblem : Bool
  explanation : String
  label : String
  industry : String
  derivedProblems : Option (List DerivedProblem) := none
deriving DecidableEq, Repr

/-- `InitialClassificationOutput` (parsed first-LLM-call JSON). -/
structure InitialClassificationOutput where
  isProblem : Bool
  explanation : String
  label : String
  industry : String
  potential : String
deriving DecidableEq, Repr

/-- The external collaborators of `checkValidity`: the category names
read from the repository and the two LLM round-trips
(`performInitialClassification` and `deriveProblems`), each given the
trimmed body. -/
structure ValidityEnv where
  categories : List String
  initialClassification : List Char → AgentResult InitialClassificationOutput
  deriveProblems : List Char → AgentResult (List DerivedProblem)

/-- JS `String.prototype.trim` over the character list. -/
def jsTrim (s : String) : List Char :=
  ((s.toList.dropWhile jsIsSpace).reverse.dropWhile jsIsSpace).reverse

/-- `ValidityAgent.buildSimpleResult` (metrics recording aside): a
successful result carrying the reason in both `explanation` and
`label`. -/
def buildSimpleResult (isValid : Bool) (reason : String) :
    AgentResult ValidityData :=
  .ok { isProblem := isValid, explanation := reason, label := reason,
        industry := "General" }

/-- `ValidityAgent.crossCheckDerivedProblems`. -/
def crossCheckDerivedProblems (derivedProblems : List DerivedProblem)
    (original : ValidityData) : ValidityData :=
  match derivedProblems with
  | [] => { isProblem := original.isProblem,
            explanation := original.explanation,
            label := original.label, industry := original.industry }
  | primary :: _ =>
      { isProblem := true,
        explanation :=
          "Multiple problems identified. Primary: " ++ primary.problemStatement,
        label := primary.label, industry := primary.industry }

/-- `ValidityAgent.checkValidity(body)`; the second component counts LLM
round-trips performed. -/
def checkValidity (env : ValidityEnv) (body : String) :
    AgentResult ValidityData × Nat :=
  let trimmed := jsTrim body
  if trimmed.isEmpty then
    (buildSimpleResult false "Missing title or body content", 0)
  else if trimmed.length < 10 then
    (buildSimpleResult false "Content too short to be meaningful", 0)
  else
    match env.initialClassification trimmed with
    | .fail e => (.fail e, 1)
    | .ok ini =>
        let finalData : ValidityData :=
          { isProblem := ini.isProblem, explanation := ini.explanation,
            label := ini.label, industry := ini.industry }
        if ini.potential = "existent" then
          match env.deriveProblems trimmed with
          | .ok probs =>
              if probs.isEmpty then (.ok finalData, 2)
              else
                let crossChecked := crossCheckDerivedProblems probs finalData
                (.ok { crossChecked with derivedProblems := some probs }, 2)
          | .fail _ => (.ok finalData, 2)
        else (.ok finalData, 1)

/-- C6: a body whose trimmed length is below ten characters yields a
successful result with `isProblem = false` — reason "Content too short to
be meaningful" when the trimmed body is non-empty and "Missing title or
body content" when it is empty — and performs zero LLM round-trips. -/
theorem checkValidity_short_body (env : ValidityEnv) (body : String)
    (h : (jsTrim body).length < 10) :
    checkValidity env body
      = (buildSimpleResult false
          (if (jsTrim body).isEmpty then "Missing title or body content"
           else "Content too short to be meaningful"), 0) := by
  unfold checkValidity
  by_cases he : (jsTrim body).isEmpty
  · simp [he]
  · simp [he, h]

/-- Closed instantiations of `checkValidity_short_body` at an empty and at
a two-character body. -/
theorem checkValidity_short_body_witness :
    ((jsTrim "hi").length < 10
      ∧ checkValidity ⟨[], fun _ => .fail "e", fun _ => .fail "e"⟩ "hi"
        = (buildSimpleResult false "Content too short to be meaningful", 0))
    ∧ ((jsTrim "  ").length < 10
      ∧ checkValidity ⟨[], fun _ => .fail "e", fun _ => .fail "e"⟩ "  "
        = (buildSimpleResult false "Missing title or body content", 0)) := by
  refine ⟨⟨by decide, ?_⟩, ⟨by decide, ?_⟩⟩
  · have h := checkValidity_short_body
      ⟨[], fun _ => .fail "e", fun _ => .fail "e"⟩ "hi" (by decide)
    rw [h]
    decide
  · have h := checkValidity_short_body
      ⟨[], fun _ => .fail "e", fun _ => .fail "e"⟩ "  " (by decide)
    rw [h]
    decide

/-! ## Cluster agent (`ClusterAgent.assignCluster`) and clusters repository

When a nearest cluster is found, the agent computes the incrementally
updated centroid, calls `clustersRepo.updateCentroid(clusterId,
newCentroid, memberCount + 1)` — which writes both the centroid and the
new member count — and then *additionally* calls
`clustersRepo.incrementMemberCount(clusterId)`, which re-reads the
member count and writes `current + 1` again. -/

/-- The `clusters` row fields the agent path touches. -/
structure Cluster where
  id : Nat
  centroid : List Rat
  memberCount : Nat
  categoryId : Option Nat := none
deriving DecidableEq, Repr

/-- `EmbeddingsService.updateCentroidIncremental`. -/
def updateCentroidIncremental (currentCentroid : List Rat)
    (currentCount : Nat) (newEmbedding : List Rat) : List Rat :=
  let newCount := currentCount + 1
  currentCentroid.mapIdx (fun i val =>
    (val * currentCount + (newEmbedding[i]?.getD 0)) / newCount)

/-- `.eq("id", id)` row lookup in the clusters table. -/
def findClusterById (db : List Cluster) (id : Nat) : Option Cluster :=
  db.find? (fun c => c.id = id)

/-- `ClustersRepository.updateCentroid(clusterId, newCentroid,
newMemberCount)`: an `updateById` that sets both columns;
`.select("*").single()` errors when the row is missing. -/
def repoUpdateCentroid (db : List Cluster) (clusterId : Nat)
    (newCentroid : List Rat) (newMemberCount : Nat) :
    Except String (List Cluster) :=
  if (findClusterById db clusterId).isSome then
    .ok (db.map (fun c =>
      if c.id = clusterId then
        { c with centroid := newCentroid, memberCount := newMemberCount }
      else c))
  else .error "PGRST116"

/-- `ClustersRepository.incrementMemberCount(clusterId)`: reads the
current `member_count` and writes `current + 1`. -/
def repoIncrementMemberCount (db : List Cluster) (clusterId : Nat) :
    Except String (List Cluster) :=
  match findClusterById db clusterId with
  | none => .error "PGRST116"
  | some c =>
      .ok (db.map (fun d =>
        if d.id = clusterId then { d with memberCount := c.memberCount + 1 }
        else d))

/-- The `data` payload of a successful cluster assignment. -/
structure ClusterData where
  clusterId : Nat
  isNewCluster : Bool
deriving DecidableEq, Repr

/-- `ClusterAgent.assignCluster(postId, embedding, categoryId, title)`.
`nearest` is the outcome of the `find_nearest_cluster` server-side RPC;
`newClusterId` and `clusterName` model the store-assigned row id and the
LLM-generated short name used only in the new-cluster branch.  The
`try/catch` turns a repository error into a failure result, keeping any
partial writes. -/
def assignCluster (nearest : Option Cluster) (newClusterId : Nat)
    (_clusterName : String) (_postId : String) (embedding : List Rat)
    (categoryId : Option Nat) (db : List Cluster) :
    AgentResult ClusterData × List Cluster :=
  match nearest with
  | some nearestCluster =>
      let newCentroid := updateCentroidIncremental nearestCluster.centroid
        nearestCluster.memberCount embedding
      match repoUpdateCentroid db nearestCluster.id newCentroid
          (nearestCluster.memberCount + 1) with
      | .error e => (.fail e, db)
      | .ok db1 =>
          match repoIncrementMemberCount db1 nearestCluster.id with
          | .error e => (.fail e, db1)
          | .ok db2 =>
              (.ok { clusterId := nearestCluster.id, isNewCluster := false },
               db2)
  | none =>
      (.ok { clusterId := newClusterId, isNewCluster := true },
       db ++ [{ id := newClusterId, centroid := embedding, memberCount := 1,
                categoryId := categoryId }])

/-- C2: assigning an embedding to an existing nearest cluster updates the
centroid to componentwise `(old*count + embedding) / (count+1)` as
claimed, but the stored `memberCount` grows by **two**, not one:
`updateCentroid` already writes `memberCount + 1` and the subsequent
`incrementMemberCount` re-reads that value and writes `memberCount + 2`.
Evaluated on a cluster with `memberCount = 3` and centroid `[0, 0]`
absorbing `[1, 1]`. -/
theorem assignCluster_increments_by_two :
    (assignCluster (some { id := 1, centroid := [0, 0], memberCount := 3 })
        2 "n" "p1" [1, 1] (some 7)
        [{ id := 1, centroid := [0, 0], memberCount := 3 }]).1
      = .ok { clusterId := 1, isNewCluster := false }
    ∧ (findClusterById
        (assignCluster (some { id := 1, centroid := [0, 0], memberCount := 3 })
          2 "n" "p1" [1, 1] (some 7)
          [{ id := 1, centroid := [0, 0], memberCount := 3 }]).2 1).map
        (fun c => c.memberCount) = some 5
    ∧ (findClusterById
        (assignCluster (some { id := 1, centroid := [0, 0], memberCount := 3 })
          2 "n" "p1" [1, 1] (some 7)
          [{ id := 1, centroid := [0, 0], memberCount := 3 }]).2 1).map
        (fun c => c.centroid) = some [(1 : Rat)/4, 1/4] := by
  refine ⟨?_, ?_, ?_⟩ <;>
    simp [assignCluster, repoUpdateCentroid, repoIncrementMemberCount,
      findClusterById, updateCentroidIncremental]

/-! ## Orchestrator (`OrchestratorService`)

`processPost` short-circuits on an already-`processed` record, runs the
stage pipeline, and finally marks the record `processed` (tolerating a
missing row); on an uncaught error it marks the record `failed` and
rethrows.  The pipeline runs SpamCheck and ValidityCheck first, returns
early via `shouldStop`, and only then creates the enriched record and
runs the remaining stages, each of which writes through on success.  The
store is an explicit state; every repository call is recorded in an event
trace. -/

/-- The `RawPost` fields the orchestrator reads. -/
structure RawPost where
  id : String
  title : String
  body : String
  authorName : String
deriving DecidableEq, Repr

/-- Enriched-record status (`posts.status`). -/
inductive PostStatus where
  | unprocessed | processing | processed | failed
deriving DecidableEq, Repr

/-- The enriched `posts` row columns touched by the pipeline. -/
structure PostRecord where
  id : String
  status : PostStatus
  isSpam : Option Bool := none
  hasPii : Option Bool := none
  isValid : Option Bool := none
  validityReason : Option String := none
  validityLabel : Option String := none
  classification : Option String := none
  classificationConfidence : Option Rat := none
  description : Option String := none
  embedding : Option (List Rat) := none
  keywords : Option (List String) := none
  sentimentLabel : Option String := none
  sentimentScore : Option Rat := none
  businessIdea : Option String := none
  categoryId : Option Nat := none
  clusterId : Option Nat := none
deriving DecidableEq, Repr

/-- A `mentions` row as inserted by `MentionsRepository.create`. -/
structure Mention where
  postId : String
  clusterId : Option Nat
  categoryId : Option Nat
  sentimentScore : Option Rat
deriving DecidableEq, Repr

/-- The downstream relational store: enriched posts and mentions. -/
structure Db where
  posts : List PostRecord
  mentions : List Mention
deriving DecidableEq, Repr

/-- Trace events: one per stage invocation and one per store write. -/
inductive Ev where
  | spamCheck | validityCheck | classificationStage | semanticStage
  | sentimentStage | businessStage | categoryStage | clusterStage
  | recordMentionStage
  | createFromRawPost (id : String)
  | createDerived (id : String)
  | writeSpamPii (id : String)
  | writeValidity (id : String)
  | writeClassification (id : String)
  | writeSemantic (id : String)
  | writeSentiment (id : String)
  | writeBusiness (id : String)
  | writeCategory (id : String)
  | writeCluster (id : String)
  | mentionInsert (m : Mention)
  | statusUpdate (s : PostStatus) (ignoreMissing : Bool)
deriving DecidableEq, Repr

/-- Store-write events (as opposed to stage invocations). -/
def Ev.isWrite : Ev → Bool
  | .spamCheck | .validityCheck | .classificationStage | .semanticStage
  | .sentimentStage | .businessStage | .categoryStage | .clusterStage
  | .recordMentionStage => false
  | _ => true

/-- The six stages the early-termination rule must prevent. -/
def Ev.isLaterStage : Ev → Bool
  | .classificationStage | .semanticStage | .sentimentStage
  | .categoryStage | .clusterStage | .recordMentionStage => true
  | _ => false

/-- `PostsRepository.findById`. -/
def findPostById (db : Db) (id : String) : Option PostRecord :=
  db.posts.find? (fun p => p.id = id)

/-- Apply `f` to the row with the given id. -/
def setPost (db : Db) (id : String) (f : PostRecord → PostRecord) : Db :=
  { db with posts := db.posts.map (fun p => if p.id = id then f p else p) }

/-- `PostsRepository.updateById(id, updates, ignoreNonExistent)`:
`.single()` raises `PGRST116` on a missing row, which is swallowed iff
`ignoreNonExistent`. -/
def updatePostById (db : Db) (id : String) (f : PostRecord → PostRecord)
    (ignoreNonExistent : Bool) : Except String Db :=
  if (findPostById db id).isSome then .ok (setPost db id f)
  else if ignoreNonExistent then .ok db
  else .error "PGRST116"

/-- `createFromRawPost` / `createDerivedProblem`: an upsert keyed on the
id that (re)sets the ingest columns and puts the row into
`processing`. -/
def upsertProcessing (id : String) (db : Db) : Db :=
  match findPostById db id with
  | some _ => setPost db id (fun p => { p with status := .processing })
  | none =>
      { db with posts := db.posts ++ [{ id := id, status := .processing }] }

/-- Modelled from the spec: `PostsRepository.updateSpamPiiFlags` is
invoked by the pipeline but absent from the repository sources; per the
spec's EnrichedPost fields it is a single-row update of `isSpam`,
`hasPii` (and the moderation notes, not modelled). -/
def updateSpamPiiFlags (db : Db) (id : String) (isSpam hasPii : Bool) :
    Except String Db :=
  updatePostById db id
    (fun p => { p with isSpam := some isSpam, hasPii := some hasPii }) false

/-- Modelled from the spec: `PostsRepository.updateValidityCheck` is
invoked by the pipeline but absent from the repository sources; per the
spec's EnrichedPost fields it is a single-row update of `isValid` and
the validity reason/label. -/
def updateValidityCheck (db : Db) (id : String) (isValid : Bool)
    (reason lbl : Option String) : Except String Db :=
  updatePostById db id
    (fun p =>
      { p with
        isValid := some isValid
        validityReason := reason
        validityLabel := lbl }) false

/-- `data` of the classification stage. -/
structure ClassificationData where
  classification : String
  confidence : Rat
deriving DecidableEq, Repr

/-- `data` of the semantic stage. -/
structure SemanticData where
  summary : String
  embedding : List Rat
  keywords : List String
deriving DecidableEq, Repr

/-- `data` of the sentiment stage. -/
structure SentimentData where
  sentiment : String
  score : Rat
  confidence : Rat
deriving DecidableEq, Repr

/-- `data` of the business-idea stage (`{type, businessIdea}`). -/
structure BusinessData where
  btype : String
  businessIdea : String
deriving DecidableEq, Repr

/-- `data` of the category stage. -/
structure CategoryData where
  categoryId : Nat
  categoryName : String
deriving DecidableEq, Repr

/-- The dynamic value held in `state.sentimentResult`: the sentiment step
stores a sentiment payload, but `businessIdeaAnalysis` returns its result
under the `sentimentResult` key too (`return { sentimentResult: result }`
in the source), storing a business-idea payload there. -/
inductive SentimentSlot where
  | sent (d : SentimentData)
  | business (d : BusinessData)
deriving DecidableEq, Repr

/-- JS `data?.score` on the dynamic slot: a business-idea payload has no
`score` property, so the access yields `undefined`. -/
def SentimentSlot.scoreOf : SentimentSlot → Option Rat
  | .sent d => some d.score
  | .business _ => none

/-- The agents' behaviours, as functions of the text they receive (LLM
nondeterminism is fixed by the oracle).  `derivedId` models the
store-assigned id `"<origId> - Derived- <uuid>"` for the n-th derived
problem. -/
structure Agents where
  spam : String → String → String → AgentResult SpamData
  validity : String → AgentResult ValidityData
  classify : String → String → AgentResult ClassificationData
  semantic : String → String → AgentResult SemanticData
  sentiment : String → String → AgentResult SentimentData
  business : String → String → AgentResult BusinessData
  assignCategory : String → String → AgentResult CategoryData
  clusterAssign : String → List Rat → Option Nat → String →
    AgentResult ClusterData
  derivedId : RawPost → DerivedProblem → Nat → String

/-- `OrchestrationState` from `orchestrator.service.ts`. -/
structure OState where
  postId : String
  rawPost : RawPost
  spamResult : Option (AgentResult SpamData) := none
  validityResult : Option (AgentResult ValidityData) := none
  classificationResult : Option (AgentResult ClassificationData) := none
  semanticResult : Option (AgentResult SemanticData) := none
  sentimentResult : Option (AgentResult SentimentSlot) := none
  categoryResult : Option (AgentResult CategoryData) := none
  clusterResult : Option (AgentResult ClusterData) := none

/-- `state.xxxResult?.data` (optional chaining). -/
def optData {α : Type} (r : Option (AgentResult α)) : Option α :=
  r.bind AgentResult.data

/-- `state.xxxResult?.success` as a truthiness test. -/
def optSuccess {α : Type} (r : Option (AgentResult α)) : Bool :=
  (r.map AgentResult.success).getD false

/-- `OrchestratorService.shouldStop`: spam or PII flags, or a present
validity result whose `data?.isProblem` is falsy. -/
def shouldStop (st : OState) : Bool :=
  (((optData st.spamResult).map (fun d => d.isSpam)).getD false)
  || (((optData st.spamResult).map (fun d => d.hasPii)).getD false)
  || (st.validityResult.isSome
      && !(((optData st.validityResult).map (fun d => d.isProblem)).getD false))

/-- Outcome of a pipeline segment: pending exception, state, store,
events. -/
def StepResult : Type :=
  Except String Unit × OState × Db × List Ev

/-- Sequencing: run the next step only when no exception is pending,
accumulating events. -/
def thenStep (r : StepResult) (f : OState → Db → StepResult) : StepResult :=
  match r with
  | (.ok _, st, db, evs) =>
      match f st db with
      | (e, st2, db2, evs2) => (e, st2, db2, evs ++ evs2)
  | err => err

/-- Lift a sentiment-stage result into the dynamic slot. -/
def liftSent : AgentResult SentimentData → AgentResult SentimentSlot
  | .ok d => .ok (.sent d)
  | .fail e => .fail e

/-- Lift a business-idea result into the dynamic slot. -/
def liftBusiness : AgentResult BusinessData → AgentResult SentimentSlot
  | .ok d => .ok (.business d)
  | .fail e => .fail e

/-- `OrchestratorService.classification`: classify, write through on
success (`updateClassification`), return the result under its key. -/
def classificationStep (a : Agents) (st : OState) (db : Db) : StepResult :=
  let result := a.classify st.rawPost.title st.rawPost.body
  match result with
  | .ok d =>
      match updatePostById db st.rawPost.id
          (fun p =>
            { p with
              classification := some d.classification
              classificationConfidence := some d.confidence }) false with
      | .ok db1 =>
          (.ok (), { st with classificationResult := some result }, db1,
           [.classificationStage, .writeClassification st.rawPost.id])
      | .error e =>
          (.error e, { st with classificationResult := some result }, db,
           [.classificationStage])
  | .fail _ =>
      (.ok (), { st with classificationResult := some result }, db,
       [.classificationStage])

/-- `OrchestratorService.semanticAnalysis`. -/
def semanticStep (a : Agents) (st : OState) (db : Db) : StepResult :=
  let result := a.semantic st.rawPost.title st.rawPost.body
  match result with
  | .ok d =>
      match updatePostById db st.rawPost.id
          (fun p =>
            { p with
              description := some d.summary
              embedding := some d.embedding
              keywords := some d.keywords }) false with
      | .ok db1 =>
          (.ok (), { st with semanticResult := some result }, db1,
           [.semanticStage, .writeSemantic st.rawPost.id])
      | .error e =>
          (.error e, { st with semanticResult := some result }, db,
           [.semanticStage])
  | .fail _ =>
      (.ok (), { st with semanticResult := some result }, db,
       [.semanticStage])

/-- `OrchestratorService.sentimentAnalysis`: on success writes the
sentiment columns and stores the result under `sentimentResult`. -/
def sentimentStep (a : Agents) (st : OState) (db : Db) : StepResult :=
  let result := a.sentiment st.rawPost.title st.rawPost.body
  match result with
  | .ok d =>
      match updatePostById db st.rawPost.id
          (fun p =>
            { p with
              sentimentLabel := some d.sentiment
              sentimentScore := some d.score }) false with
      | .ok db1 =>
          (.ok (), { st with sentimentResult := some (liftSent result) }, db1,
           [.sentimentStage, .writeSentiment st.rawPost.id])
      | .error e =>
          (.error e, { st with sentimentResult := some (liftSent result) },
           db, [.sentimentStage])
  | .fail _ =>
      (.ok (), { st with sentimentResult := some (liftSent result) }, db,
       [.sentimentStage])

/-- `OrchestratorService.businessIdeaAnalysis`: on success writes the
business-idea column — and returns its result under the
**`sentimentResult`** key (`return { sentimentResult: result }` in the
source), overwriting the sentiment stage's entry. -/
def businessStep (a : Agents) (st : OState) (db : Db) : StepResult :=
  let result := a.business st.rawPost.title st.rawPost.body
  match result with
  | .ok d =>
      match updatePostById db st.rawPost.id
          (fun p => { p with businessIdea := some d.businessIdea }) false with
      | .ok db1 =>
          (.ok (), { st with sentimentResult := some (liftBusiness result) },
           db1, [.businessStage, .writeBusiness st.rawPost.id])
      | .error e =>
          (.error e, { st with sentimentResult := some (liftBusiness result) },
           db, [.businessStage])
  | .fail _ =>
      (.ok (), { st with sentimentResult := some (liftBusiness result) }, db,
       [.businessStage])

/-- `OrchestratorService.categoryAssignment`: the prompt title and
description fall back from the validity result's label/explanation to the
raw title/body. -/
def categoryStep (a : Agents) (st : OState) (db : Db) : StepResult :=
  let title :=
    ((optData st.validityResult).map (fun d => d.label)).getD st.rawPost.title
  let description :=
    ((optData st.validityResult).map (fun d => d.explanation)).getD
      st.rawPost.body
  let result := a.assignCategory title description
  match result with
  | .ok d =>
      match updatePostById db st.rawPost.id
          (fun p => { p with categoryId := some d.categoryId }) false with
      | .ok db1 =>
          (.ok (), { st with categoryResult := some result }, db1,
           [.categoryStage, .writeCategory st.rawPost.id])
      | .error e =>
          (.error e, { st with categoryResult := some result }, db,
           [.categoryStage])
  | .fail _ =>
      (.ok (), { st with categoryResult := some result }, db,
       [.categoryStage])

/-- `OrchestratorService.clusterAssignment`: embedding falls back to `[]`
when the semantic stage produced none; the category id is passed through
a non-null assertion (modelled as the optional value). -/
def clusterStep (a : Agents) (st : OState) (db : Db) : StepResult :=
  let result := a.clusterAssign st.rawPost.id
    (((optData st.semanticResult).map (fun d => d.embedding)).getD [])
    ((optData st.categoryResult).map (fun d => d.categoryId))
    st.rawPost.title
  match result with
  | .ok d =>
      match updatePostById db st.rawPost.id
          (fun p => { p with clusterId := some d.clusterId }) false with
      | .ok db1 =>
          (.ok (), { st with clusterResult := some result }, db1,
           [.clusterStage, .writeCluster st.rawPost.id])
      | .error e =>
          (.error e, { st with clusterResult := some result }, db,
           [.clusterStage])
  | .fail _ =>
      (.ok (), { st with clusterResult := some result }, db, [.clusterStage])

/-- `OrchestratorService.recordMention`: inserts one mention only when the
cluster, category and (slot-held) sentiment results all report success;
the stored score is `sentimentResult.data?.score`. -/
def recordMentionStep (st : OState) (db : Db) : StepResult :=
  if optSuccess st.clusterResult && optSuccess st.categoryResult
      && optSuccess st.sentimentResult then
    let m : Mention :=
      { postId := st.rawPost.id
        clusterId := (optData st.clusterResult).map (fun d => d.clusterId)
        categoryId := (optData st.categoryResult).map (fun d => d.categoryId)
        sentimentScore := (optData st.sentimentResult).bind
          SentimentSlot.scoreOf }
    (.ok (), st, { db with mentions := db.mentions ++ [m] },
     [.recordMentionStage, .mentionInsert m])
  else (.ok (), st, db, [.recordMentionStage])

/-- Steps 3–8 of the pipeline (also reused for each derived problem). -/
def enrichmentSteps (a : Agents) (st : OState) (db : Db) : StepResult :=
  thenStep (thenStep (thenStep (thenStep (thenStep (thenStep
    (classificationStep a st db)
    (semanticStep a)) (sentimentStep a)) (businessStep a))
    (categoryStep a)) (clusterStep a)) recordMentionStep

/-- `OrchestratorService.processDerivedProblems`: one derived record and
one full step chain per derived problem; a failure inside one problem is
caught and the loop continues (in this store model a repository error
cannot occur there, since the derived row is upserted first). -/
def processDerived (a : Agents) (origRaw : RawPost) :
    List DerivedProblem → Nat → Db → Db × List Ev
  | [], _, db => (db, [])
  | problem :: rest, idx, db =>
      let derivedId := a.derivedId origRaw problem idx
      let db1 := upsertProcessing derivedId db
      let derivedRaw : RawPost :=
        { origRaw with
          id := derivedId
          title := problem.label
          body := problem.explanation }
      let derivedState : OState :=
        { postId := derivedId
          rawPost := derivedRaw
          validityResult := some (.ok
            { isProblem := true
              explanation := problem.explanation
              label := problem.label
              industry := problem.industry }) }
      match enrichmentSteps a derivedState db1 with
      | (.ok _, _, db2, evs2) =>
          let r := processDerived a origRaw rest (idx + 1) db2
          (r.1, [Ev.createDerived derivedId] ++ evs2 ++ r.2)
      | (.error _, _, db2, evs2) =>
          let r := processDerived a origRaw rest (idx + 1) db2
          (r.1, [Ev.createDerived derivedId] ++ evs2 ++ r.2)

/-- `OrchestratorService.executeOrchestrationPipeline`. -/
def executeOrchestrationPipeline (a : Agents) (raw : RawPost) (db : Db) :
    Except String Unit × Db × List Ev :=
  let st0 : OState := { postId := raw.id, rawPost := raw }
  let spamR := a.spam raw.title raw.body raw.authorName
  let st1 := { st0 with spamResult := some spamR }
  if shouldStop st1 then (.ok (), db, [Ev.spamCheck])
  else
    let valR := a.validity raw.body
    let st2 := { st1 with validityResult := some valR }
    if shouldStop st2 then (.ok (), db, [Ev.spamCheck, Ev.validityCheck])
    else
      let db1 := upsertProcessing raw.id db
      match updateSpamPiiFlags db1 raw.id
          (((AgentResult.data spamR).map (fun d => d.isSpam)).getD false)
          (((AgentResult.data spamR).map (fun d => d.hasPii)).getD false) with
      | .error e =>
          (.error e, db1,
           [Ev.spamCheck, Ev.validityCheck, Ev.createFromRawPost raw.id])
      | .ok db2 =>
          let derivedList :=
            ((AgentResult.data valR).bind (fun d => d.derivedProblems)).getD []
          let prefixEvs :=
            [Ev.spamCheck, Ev.validityCheck, Ev.createFromRawPost raw.id,
             Ev.writeSpamPii raw.id]
          let afterValidity : Except String Unit × Db × List Ev :=
            if derivedList.isEmpty then
              match updateValidityCheck db2 raw.id true
                  ((AgentResult.data valR).map (fun d => d.explanation))
                  ((AgentResult.data valR).map (fun d => d.label)) with
              | .error e => (.error e, db2, [])
              | .ok db3 => (.ok (), db3, [Ev.writeValidity raw.id])
            else
              let r := processDerived a raw derivedList 0 db2
              (.ok (), r.1, r.2)
          match afterValidity with
          | (.error e, db3, evsV) => (.error e, db3, prefixEvs ++ evsV)
          | (.ok _, db3, evsV) =>
              match enrichmentSteps a st2 db3 with
              | (e, _, db4, evsS) => (e, db4, prefixEvs ++ evsV ++ evsS)

/-- The catch block of `processPost`: mark the record `failed` and
rethrow. -/
def markFailedAndRethrow (raw : RawPost) (db : Db) (evs : List Ev)
    (e : String) : Except String Unit × Db × List Ev :=
  match updatePostById db raw.id (fun p => { p with status := .failed })
      false with
  | .ok db2 => (.error e, db2, evs ++ [Ev.statusUpdate .failed false])
  | .error e2 => (.error e2, db, evs ++ [Ev.statusUpdate .failed false])

/-- The body of `processPost` past the idempotency check: run the
pipeline, then mark `processed` with `ignoreNonExistent = true`; any
exception marks the record `failed` and is rethrown. -/
def processPostRun (a : Agents) (raw : RawPost) (db : Db) :
    Except String Unit × Db × List Ev :=
  match executeOrchestrationPipeline a raw db with
  | (.ok _, db1, evs) =>
      match updatePostById db1 raw.id
          (fun p => { p with status := .processed }) true with
      | .ok db2 => (.ok (), db2, evs ++ [Ev.statusUpdate .processed true])
      | .error e =>
          markFailedAndRethrow raw db1
            (evs ++ [Ev.statusUpdate .processed true]) e
  | (.error e, db1, evs) => markFailedAndRethrow raw db1 evs e

/-- `OrchestratorService.processPost`: skip an already-`processed`
record, otherwise run the pipeline and finalize the status. -/
def processPost (a : Agents) (raw : RawPost) (db : Db) :
    Except String Unit × Db × List Ev :=
  match findPostById db raw.id with
  | some existing =>
      if existing.status = .processed then (.ok (), db, [])
      else processPostRun a raw db
  | none => processPostRun a raw db

/-! ### Shared early-stop lemma and concrete oracles -/

/-- When the spam agent flags `isSpam` or `hasPii`, or the validity agent
answers `isProblem = false`, the pipeline returns before
`createFromRawPost`, leaving the store untouched with a trace of one or
two stage events. -/
theorem pipeline_early_stop (a : Agents) (raw : RawPost) (db : Db)
    (h : ((a.spam raw.title raw.body raw.authorName).data.map
            (fun d => d.isSpam) = some true)
      ∨ ((a.spam raw.title raw.body raw.authorName).data.map
            (fun d => d.hasPii) = some true)
      ∨ ((a.validity raw.body).data.map
            (fun d => d.isProblem) = some false)) :
    executeOrchestrationPipeline a raw db = (.ok (), db, [Ev.spamCheck])
    ∨ executeOrchestrationPipeline a raw db
        = (.ok (), db, [Ev.spamCheck, Ev.validityCheck]) := by
  rcases h with hs | hp | hv
  · left
    simp [executeOrchestrationPipeline, shouldStop, optData, hs]
  · left
    simp [executeOrchestrationPipeline, shouldStop, optData, hp]
  · by_cases hb : (((a.spam raw.title raw.body raw.authorName).data.map
        (fun d => d.isSpam)).getD false
      || ((a.spam raw.title raw.body raw.authorName).data.map
        (fun d => d.hasPii)).getD false) = true
    · left
      simp only [executeOrchestrationPipeline, shouldStop, optData]
      simp [hb]
    · right
      have hb' : (((a.spam raw.title raw.body raw.authorName).data.map
          (fun d => d.isSpam)).getD false
        || ((a.spam raw.title raw.body raw.authorName).data.map
          (fun d => d.hasPii)).getD false) = false := by
        simpa using hb
      simp only [executeOrchestrationPipeline, shouldStop, optData]
      simp only [Bool.or_assoc] at hb' ⊢
      simp [hb', hv]

/-- A happy-path oracle set: no spam, valid, and every later stage
succeeds; the sentiment stage reports score `1`. -/
def happyAgents : Agents where
  spam := fun _ _ _ => .ok { isSpam := false, hasPii := false, spamScore := 0 }
  validity := fun _ =>
    .ok { isProblem := true, explanation := "e", label := "l", industry := "i" }
  classify := fun _ _ => .ok { classification := "question", confidence := 1 }
  semantic := fun _ _ =>
    .ok { summary := "s", embedding := [1], keywords := ["k"] }
  sentiment := fun _ _ =>
    .ok { sentiment := "neutral", score := 1, confidence := 1 }
  business := fun _ _ => .ok { btype := "problem", businessIdea := "b" }
  assignCategory := fun _ _ => .ok { categoryId := 7, categoryName := "c" }
  clusterAssign := fun _ _ _ _ => .ok { clusterId := 5, isNewCluster := false }
  derivedId := fun _ _ _ => "d"

/-- `happyAgents` with the business-idea LLM call failing. -/
def businessFailAgents : Agents :=
  { happyAgents with business := fun _ _ => .fail "llm down" }

/-- `happyAgents` with the spam agent flagging spam. -/
def spamAgents : Agents :=
  { happyAgents with
    spam := fun _ _ _ =>
      .ok { isSpam := true, hasPii := false, spamScore := 1 } }

/-- A concrete raw post. -/
def happyRaw : RawPost :=
  { id := "p1", title := "t", body := "b", authorName := "a" }

/-- C1: on a fully successful run (not spam, valid, cluster, category and
sentiment stages all succeeded) exactly one mention row is inserted, but
its `sentimentScore` is **not** the sentiment stage's score:
`businessIdeaAnalysis` returns its result under the `sentimentResult`
key, so `recordMention` reads `data?.score` off the business-idea payload
and stores `undefined` (`none`) instead of the sentiment score `1`; and
when the business-idea stage fails while sentiment succeeded, no mention
is inserted at all. -/
theorem recordMention_reads_business_slot :
    (processPost happyAgents happyRaw ⟨[], []⟩).1 = .ok ()
    ∧ (processPost happyAgents happyRaw ⟨[], []⟩).2.1.mentions
      = [{ postId := "p1", clusterId := some 5, categoryId := some 7,
           sentimentScore := none }]
    ∧ (happyAgents.sentiment happyRaw.title happyRaw.body).data.map
        (fun d => d.score) = some 1
    ∧ (processPost happyAgents happyRaw ⟨[], []⟩).2.1.mentions.map
        (fun m => m.sentimentScore) ≠ [some 1]
    ∧ (businessFailAgents.sentiment happyRaw.title happyRaw.body).success
        = true
    ∧ (businessFailAgents.clusterAssign "p1" [1] (some 7) "t").success = true
    ∧ (businessFailAgents.assignCategory "l" "e").success = true
    ∧ (processPost businessFailAgents happyRaw ⟨[], []⟩).2.1.mentions = [] := by
  refine ⟨by rfl, by decide, by decide, by decide, by decide, by decide,
    by decide, by decide⟩

/-- C5: once the spam agent reports `isSpam = true` or `hasPii = true`,
or the validity agent reports `isProblem = false`, none of
Classification, SemanticAnalysis, SentimentAnalysis, CategoryAssign,
ClusterAssign or RecordMention is executed in that pipeline run. -/
theorem pipeline_early_termination (a : Agents) (raw : RawPost) (db : Db)
    (h : ((a.spam raw.title raw.body raw.authorName).data.map
            (fun d => d.isSpam) = some true)
      ∨ ((a.spam raw.title raw.body raw.authorName).data.map
            (fun d => d.hasPii) = some true)
      ∨ ((a.validity raw.body).data.map
            (fun d => d.isProblem) = some false)) :
    ((executeOrchestrationPipeline a raw db).2.2).filter Ev.isLaterStage
      = [] := by
  rcases pipeline_early_stop a raw db h with he | he <;> rw [he] <;> rfl

/-- Closed instantiation of `pipeline_early_termination` on a spam
post. -/
theorem pipeline_early_termination_witness :
    ((spamAgents.spam happyRaw.title happyRaw.body happyRaw.authorName).data.map
        (fun d => d.isSpam) = some true)
    ∧ ((executeOrchestrationPipeline spamAgents happyRaw ⟨[], []⟩).2.2).filter
        Ev.isLaterStage = [] :=
  ⟨by decide,
   pipeline_early_termination spamAgents happyRaw ⟨[], []⟩
     (Or.inl (by decide))⟩

/-- C7: an enriched record already in status `processed` makes
`processPost` return without error, without running any stage and without
touching the store. -/
theorem processPost_skips_processed (a : Agents) (raw : RawPost) (db : Db)
    (rec : PostRecord) (hfind : findPostById db raw.id = some rec)
    (hstatus : rec.status = .processed) :
    processPost a raw db = (.ok (), db, []) := by
  unfold processPost
  rw [hfind]
  simp [hstatus]

/-- Closed instantiation of `processPost_skips_processed`. -/
theorem processPost_skips_processed_witness :
    findPostById ⟨[{ id := "p1", status := .processed }], []⟩ happyRaw.id
      = some { id := "p1", status := .processed }
    ∧ processPost happyAgents happyRaw
        ⟨[{ id := "p1", status := .processed }], []⟩
      = (.ok (), ⟨[{ id := "p1", status := .processed }], []⟩, []) :=
  ⟨by decide,
   processPost_skips_processed happyAgents happyRaw
     ⟨[{ id := "p1", status := .processed }], []⟩
     { id := "p1", status := .processed } (by decide) (by decide)⟩

/-- C9: when the pipeline stops early on spam/PII or invalidity and no
enriched record pre-exists, no record is created and no stage column is
written — the store comes back unchanged; the only write attempted
afterwards is the final status update with `ignoreNonExistent = true`,
and the run completes without error (the post is never marked
`failed`). -/
theorem early_stop_frame (a : Agents) (raw : RawPost) (db : Db)
    (hmissing : findPostById db raw.id = none)
    (h : ((a.spam raw.title raw.body raw.authorName).data.map
            (fun d => d.isSpam) = some true)
      ∨ ((a.spam raw.title raw.body raw.authorName).data.map
            (fun d => d.hasPii) = some true)
      ∨ ((a.validity raw.body).data.map
            (fun d => d.isProblem) = some false)) :
    (processPost a raw db).1 = .ok ()
    ∧ (processPost a raw db).2.1 = db
    ∧ ((processPost a raw db).2.2).filter Ev.isWrite
      = [Ev.statusUpdate .processed true] := by
  have hupd : updatePostById db raw.id
      (fun p => { p with status := PostStatus.processed }) true = .ok db := by
    unfold updatePostById
    rw [hmissing]
    simp
  have hmain : processPost a raw db = processPostRun a raw db := by
    unfold processPost
    rw [hmissing]
  rcases pipeline_early_stop a raw db h with he | he <;>
    · rw [hmain]
      unfold processPostRun
      rw [he]
      dsimp only
      rw [hupd]
      exact ⟨rfl, rfl, rfl⟩

/-- Closed instantiation of `early_stop_frame` on a spam post over an
empty store. -/
theorem early_stop_frame_witness :
    findPostById ⟨[], []⟩ happyRaw.id = none
    ∧ (processPost spamAgents happyRaw ⟨[], []⟩).1 = .ok ()
    ∧ (processPost spamAgents happyRaw ⟨[], []⟩).2.1 = (⟨[], []⟩ : Db)
    ∧ ((processPost spamAgents happyRaw ⟨[], []⟩).2.2).filter Ev.isWrite
      = [Ev.statusUpdate .processed true] :=
  ⟨by decide,
   early_stop_frame spamAgents happyRaw ⟨[], []⟩ (by decide)
     (Or.inl (by decide))⟩

end Soluv
